import Mathlib

/-!
# slogan: normalisation of Go values into `slog.Value`

A shallow embedding of the `slogan` package: `attr.go` (helpers `Pointer`, `Map`,
`MapValue`, `reflectMapValue`, `Slice`, `SliceValue`, `reflectSliceValue`, `Any`,
`AnyValue`), `ctx.go` (level override carried by a context), `common.go` (the handler
wrapper), `replace.go` (`DefaultReplaceFunc`) and `httpmiddleware.go` (the request log
middleware), together with the parts of the Go standard library they call (`log/slog`
values, attributes and records, `reflect.Value`, `context` values,
`fmt.Sprintf("%v", key)`, `strconv.Itoa`).

Go values are finite trees, so reference cycles are not representable.  A call can
end in three ways: it returns, it panics, or the recursion budget of the model is
used up (`Fault.outOfFuel`); the last is an artefact of the model, not of the code.
-/

set_option autoImplicit false

namespace Slogan

/-! ## Go values -/

/-- Signed integer types of Go. -/
inductive IntTy where
  | int | int8 | int16 | int32 | int64
  deriving DecidableEq, Repr

/-- Unsigned integer types of Go. -/
inductive UintTy where
  | uint | uint8 | uint16 | uint32 | uint64 | uintptr
  deriving DecidableEq, Repr

/-- A `float64` held by a `slog.Value`: given by its IEEE-754 bits, or obtained by the
(exact) widening `float64(x)` of the `float32` with the given bits. -/
inductive GoFloat where
  | f64 (bits : Nat)
  | ofF32 (bits : Nat)
  deriving DecidableEq, Repr

/-- A `time.Time`: wall clock reading, location name and optional monotonic reading. -/
structure GoTime where
  unixNano : Int
  loc : String
  mono : Option Nat
  deriving DecidableEq, Repr

/-- Map keys.  Only their `%v` rendering is ever observed, so a key of any other
comparable type (float, pointer, struct, array, named type with a `String` method ...) is
given together with the text `fmt` prints for it. -/
inductive GoKey where
  | str (s : String)
  | int (t : IntTy) (n : Int)
  | uint (t : UintTy) (n : Nat)
  | bool (b : Bool)
  | other (id : Nat) (text : String)
  deriving DecidableEq, Repr

mutual
/-- A Go value of a concrete (non-interface) dynamic type.  `none` inside `ptr`, `slice`,
`map` and `attrs` is the typed nil of that type. -/
inductive GoVal where
  /-- Type `string`. -/
  | str (s : String)
  /-- Types `int`, `int8`, `int16`, `int32`, `int64`. -/
  | int (t : IntTy) (n : Int)
  /-- Types `uint`, `uint8`, `uint16`, `uint32`, `uint64`, `uintptr`. -/
  | uint (t : UintTy) (n : Nat)
  /-- Type `bool`. -/
  | bool (b : Bool)
  /-- Type `float64`, by its bits. -/
  | float64 (bits : Nat)
  /-- Type `float32`, by its bits. -/
  | float32 (bits : Nat)
  /-- Type `time.Duration`. -/
  | duration (n : Int)
  /-- Type `time.Time`. -/
  | time (t : GoTime)
  /-- Type `[]slog.Attr` (exactly this unnamed type). -/
  | attrs (as : Option (List (String × SlogValue)))
  /-- Type `slog.Kind`. -/
  | kind (k : Int)
  /-- Type `slog.Value`. -/
  | value (v : SlogValue)
  /-- Type `reflect.Value`; `none` is the zero Value. -/
  | reflectValue (rv : Option GoSlot)
  /-- Any pointer type; `some s` points to a variable holding `s`, `none` is the nil
  pointer (of a type other than `*slog.Source`, see `nilSource`). -/
  | ptr (p : Option GoSlot)
  /-- Any slice type other than `[]slog.Attr`. -/
  | slice (s : Option (List GoSlot))
  /-- Any map type; the entries are listed in the order in which iteration yields them. -/
  | map (m : Option (List (GoKey × GoSlot)))
  /-- Type `slog.Attr` (a struct). -/
  | attr (key : String) (v : SlogValue)
  /-- A value of any other type (struct, array, channel, function, named scalar type,
  complex number ...): its reflective kind is none of pointer, slice, map, interface. -/
  | other (id : Nat)
  /-- Type `slog.Level` (an integer type with the method `Level`). -/
  | level (l : Int)
  /-- Type `slog.Source` (a struct); a non-nil `*slog.Source` is a pointer to it. -/
  | source (function : String) (file : String) (line : Int)
  /-- The nil pointer of type `*slog.Source` (the one typed nil whose type matters,
  replace.go 23). -/
  | nilSource
/-- The content of a variable, slice element or map element: of interface static type
(holding nil or a concrete value) or of concrete static type. -/
inductive GoSlot where
  | iface (a : Option GoVal)
  | conc (v : GoVal)
/-- A `slog.Value`.  `any` is `KindAny` (or `KindLogValuer`): an arbitrary Go value kept
as is, `none` being the nil interface. -/
inductive SlogValue where
  | string (s : String)
  | int64 (n : Int)
  | uint64 (n : Nat)
  | bool (b : Bool)
  | float64 (f : GoFloat)
  | duration (n : Int)
  | time (t : GoTime)
  | group (as : List (String × SlogValue))
  | any (a : Option GoVal)
end

/-- A value of type `any`: `none` is the nil interface. -/
abbrev GoAny := Option GoVal

/-- A `slog.Attr`. -/
abbrev Attr := String × SlogValue

/-- A typed slice `[]V`: `none` is the nil slice. -/
abbrev GoSlice := Option (List GoSlot)

/-- A typed map `map[K]V`: `none` is the nil map. -/
abbrev GoMap := Option (List (GoKey × GoSlot))

/-- Conversion of a typed value `v V` to `any` (at a call `Any(key, v)`). -/
def GoSlot.toAny : GoSlot → GoAny
  | .iface a => a
  | .conc v => some v

/-- How a call ends when it does not return.  For the two panics the code can reach
(`Value.Interface` on the zero Value, `Value.Group` on a value that is no group) the
message is Go's; for the others it only names the failing call. -/
inductive Fault where
  | panic (msg : String)
  | outOfFuel
  deriving DecidableEq, Repr

/-! ## `strconv` and `fmt` -/

/-- Go `strconv.Itoa` / `strconv.FormatInt(_, 10)`. -/
def Itoa (i : Int) : String := toString i

/-- Go `fmt.Sprintf("%v", k)` on a map key. -/
def Sprintf_v : GoKey → String
  | .str s => s
  | .int _ n => toString n
  | .uint _ n => toString n
  | .bool b => if b then "true" else "false"
  | .other _ text => text

/-! ## `log/slog` -/

namespace slog

/-- Go `slog.StringValue`. -/
def StringValue (s : String) : SlogValue := .string s

/-- Go `Value.isEmptyGroup` (log/slog/value.go): the value is a group and has no
attributes. -/
def isEmptyGroup : SlogValue → Bool
  | .group [] => true
  | _ => false

/-- Go `slog.GroupValue` (log/slog/value.go): "Remove empty groups", that is, the
attributes `a` with `a.Value.isEmptyGroup()` are left out of the group. -/
def GroupValue (as : List Attr) : SlogValue :=
  .group (as.filter fun a => !isEmptyGroup a.2)

/-- Go `slog.TimeValue`: the monotonic reading is discarded. -/
def TimeValue (t : GoTime) : SlogValue := .time { t with mono := none }

/-- Go `slog.AnyValue`. -/
def AnyValue : GoAny → SlogValue
  | some (.str s) => StringValue s
  | some (.int _ n) => .int64 n
  | some (.uint _ n) => .uint64 n
  | some (.bool b) => .bool b
  | some (.duration n) => .duration n
  | some (.time t) => TimeValue t
  | some (.float64 b) => .float64 (.f64 b)
  | some (.float32 b) => .float64 (.ofF32 b)
  | some (.attrs as) => GroupValue (as.getD [])
  | some (.kind k) => .any (some (.kind k))
  | some (.value v) => v
  | v => .any v

/-- Go `slog.Any`. -/
def Any (key : String) (value : GoAny) : Attr := (key, AnyValue value)

/-- Go `Value.Group`: panics unless the value is a group. -/
def Group : SlogValue → Except Fault (List Attr)
  | .group as => .ok as
  | _ => .error (.panic "Group: bad kind")

/-- Go `slog.LevelDebug`. -/
def LevelDebug : Int := -4

/-- Go `slog.LevelInfo`. -/
def LevelInfo : Int := 0

/-- Go `slog.LevelWarn`. -/
def LevelWarn : Int := 4

/-- Go `slog.LevelError`. -/
def LevelError : Int := 8

/-- Go `slog.TimeKey`. -/
def TimeKey : String := "time"

/-- Go `slog.SourceKey`. -/
def SourceKey : String := "source"

/-- Go `slog.Int64`. -/
def Int64 (key : String) (value : Int) : Attr := (key, .int64 value)

/-- Go `slog.Duration`. -/
def Duration (key : String) (value : Int) : Attr := (key, .duration value)

/-- The zero `slog.Attr{}`: empty key and the zero `slog.Value` (the nil `any`). -/
def emptyAttr : Attr := ("", .any none)

/-- Go `slog.String`. -/
def String (key : String) (value : String) : Attr := (key, StringValue value)

end slog

/-! ## `reflect` -/

namespace reflect

/-- The reflective kinds the code distinguishes. -/
inductive Kind where
  | Invalid | Interface | Pointer | Slice | Map | Other
  deriving DecidableEq, Repr

/-- A `reflect.Value`: `none` is the zero Value, `some (.iface a)` a Value of interface
type, `some (.conc v)` a Value of concrete type. -/
abbrev Value := Option GoSlot

/-- Go `reflect.ValueOf`. -/
def ValueOf : GoAny → Value
  | none => none
  | some v => some (.conc v)

/-- Kind of a concrete value. -/
def kindOf : GoVal → Kind
  | .ptr _ => .Pointer
  | .nilSource => .Pointer
  | .slice _ => .Slice
  | .attrs _ => .Slice
  | .map _ => .Map
  | _ => .Other

/-- Go `Value.Kind`. -/
def Value.Kind : Value → Kind
  | none => .Invalid
  | some (.iface _) => .Interface
  | some (.conc v) => kindOf v

/-- Go `Value.Elem`: what an interface holds or a pointer points to. -/
def Value.Elem : Value → Except Fault Value
  | some (.iface none) => .ok none
  | some (.iface (some v)) => .ok (some (.conc v))
  | some (.conc (.ptr p)) => .ok p
  | some (.conc .nilSource) => .ok none
  | _ => .error (.panic "reflect: call of reflect.Value.Elem on a Value that is neither interface nor pointer")

/-- Go `Value.IsNil`, on the kinds the code calls it on (pointer and map) and on
interfaces and slices. -/
def Value.IsNil : Value → Except Fault Bool
  | some (.iface a) => .ok a.isNone
  | some (.conc (.ptr p)) => .ok p.isNone
  | some (.conc .nilSource) => .ok true
  | some (.conc (.slice s)) => .ok s.isNone
  | some (.conc (.attrs s)) => .ok s.isNone
  | some (.conc (.map m)) => .ok m.isNone
  | _ => .error (.panic "reflect: call of reflect.Value.IsNil on a Value that cannot be nil")

/-- The elements of a slice Value, each as the Value `v.Index(i)`. -/
def Value.elems : Value → Except Fault (List GoSlot)
  | some (.conc (.slice s)) => .ok (s.getD [])
  | some (.conc (.attrs s)) => .ok ((s.getD []).map fun a => GoSlot.conc (.attr a.1 a.2))
  | _ => .error (.panic "reflect: call of a slice method on a Value that is not a slice")

/-- The entries of a map Value, each key and element as the iterator yields them. -/
def Value.entries : Value → Except Fault (List (GoKey × GoSlot))
  | some (.conc (.map m)) => .ok (m.getD [])
  | _ => .error (.panic "reflect: call of a map method on a Value that is not a map")

/-- Go `Value.Len`, on slices and maps. -/
def Value.Len : Value → Except Fault Nat
  | some (.conc (.slice s)) => .ok (s.getD []).length
  | some (.conc (.attrs s)) => .ok (s.getD []).length
  | some (.conc (.map m)) => .ok (m.getD []).length
  | _ => .error (.panic "reflect: call of reflect.Value.Len on a Value without length")

/-- Go `Value.Index`. -/
def Value.Index (v : Value) (i : Nat) : Except Fault Value :=
  match v.elems with
  | .error e => .error e
  | .ok es =>
    match es.get? i with
    | some s => .ok (some s)
    | none => .error (.panic "reflect: slice index out of range")

/-- Go `Value.Interface`: panics on the zero Value. -/
def Value.Interface : Value → Except Fault GoAny
  | none => .error (.panic "reflect: call of reflect.Value.Interface on zero Value")
  | some (.iface a) => .ok a
  | some (.conc v) => .ok (some v)

/-- Go `Value.Seq2` on a slice: the pairs of position and element Value. -/
def Value.Seq2Slice (v : Value) : Except Fault (List (Int × Value)) :=
  match v.elems with
  | .error e => .error e
  | .ok es => .ok (es.enum.map fun p => ((p.1 : Int), some p.2))

/-- Go `Value.Seq2` on a map: the pairs of key and element Value. -/
def Value.Seq2Map (v : Value) : Except Fault (List (GoKey × Value)) :=
  match v.entries with
  | .error e => .error e
  | .ok es => .ok (es.map fun p => (p.1, some p.2))

end reflect

/-! ## `attr.go` -/

/-- The loop `for k, v = range seq { attrs = append(attrs, body(k, v)) }`, started with
empty `attrs`: the attributes in iteration order; a panic of the body ends the loop. -/
def rangeAppend {α β : Type} (body : α → β → Except Fault Attr) :
    List (α × β) → Except Fault (List Attr)
  | [] => .ok []
  | p :: rest =>
    match body p.1 p.2 with
    | .error e => .error e
    | .ok a =>
      match rangeAppend body rest with
      | .error e => .error e
      | .ok as => .ok (a :: as)

/-- `Any` over a given `AnyValue`: `slog.Any(key, AnyValue(v))`. -/
def AnyWith (anyValue : GoAny → Except Fault SlogValue) (key : String) (v : GoAny) :
    Except Fault Attr :=
  match anyValue v with
  | .error e => .error e
  | .ok r => .ok (slog.Any key (some (.value r)))

/-- `reflectSliceValue` over a given `AnyValue`. -/
def reflectSliceValueWith (anyValue : GoAny → Except Fault SlogValue) (v : reflect.Value)
    (unpackSingleValue : Bool) : Except Fault SlogValue :=
  match v.Len with
  | .error e => .error e
  | .ok len =>
    if len = 0 then
      if unpackSingleValue then .ok (slog.StringValue "")
      else .ok (slog.StringValue "[]")
    else if len = 1 ∧ unpackSingleValue = true then
      match v.Index 0 with
      | .error e => .error e
      | .ok e0 =>
        match e0.Interface with
        | .error e => .error e
        | .ok x => .ok (slog.AnyValue x)
    else
      match v.Seq2Slice with
      | .error e => .error e
      | .ok seq =>
        let body := fun (pos : Int) (slV : reflect.Value) =>
          match slV.Interface with
          | .error e => .error e
          | .ok x => AnyWith anyValue (Itoa pos) x
        match rangeAppend body seq with
        | .error e => .error e
        | .ok attrs => .ok (slog.GroupValue attrs)

/-- `reflectMapValue` over a given `AnyValue`. -/
def reflectMapValueWith (anyValue : GoAny → Except Fault SlogValue) (m : reflect.Value) :
    Except Fault SlogValue :=
  match m.IsNil with
  | .error e => .error e
  | .ok true => .ok (slog.StringValue "<nil>")
  | .ok false =>
    match m.Len with
    | .error e => .error e
    | .ok len =>
      if len = 0 then .ok (slog.StringValue "\x7b\x7d")
      else
        match m.Seq2Map with
        | .error e => .error e
        | .ok seq =>
          let body := fun (k : GoKey) (v : reflect.Value) =>
            AnyWith anyValue (Sprintf_v k) (some (.reflectValue v))
          match rangeAppend body seq with
          | .error e => .error e
          | .ok attrs => .ok (slog.GroupValue attrs)

/-- The type switch at the head of `AnyValue` (attr.go 144-185): the value a matching
case returns, `none` when no case matches. -/
def typeSwitch : GoAny → Option SlogValue
  | some (.str v) => some (slog.StringValue v)
  | some (.int .int v) => some (.int64 v)
  | some (.uint .uint v) => some (.uint64 v)
  | some (.int .int64 v) => some (.int64 v)
  | some (.uint .uint64 v) => some (.uint64 v)
  | some (.bool v) => some (.bool v)
  | some (.duration v) => some (.duration v)
  | some (.time v) => some (slog.TimeValue v)
  | some (.uint .uint8 v) => some (.uint64 v)
  | some (.uint .uint16 v) => some (.uint64 v)
  | some (.uint .uint32 v) => some (.uint64 v)
  | some (.uint .uintptr v) => some (.uint64 v)
  | some (.int .int8 v) => some (.int64 v)
  | some (.int .int16 v) => some (.int64 v)
  | some (.int .int32 v) => some (.int64 v)
  | some (.float64 v) => some (.float64 (.f64 v))
  | some (.float32 v) => some (.float64 (.ofF32 v))
  | some (.attrs v) => some (slog.GroupValue (v.getD []))
  | some (.kind v) => some (slog.AnyValue (some (.kind v)))
  | some (.value v) => some v
  | _ => none

/-- The assertion `refV, ok = v.(reflect.Value)` followed by
`if !ok { refV = reflect.ValueOf(v) }` (attr.go 191-193). -/
def asReflect : GoAny → reflect.Value × Bool
  | some (.reflectValue rv) => (rv, true)
  | v => (reflect.ValueOf v, false)

/-- `AnyValue` (attr.go 143-219).  The first argument bounds the depth of the recursive
calls; each call of `AnyValue` uses one unit. -/
def AnyValue : Nat → GoAny → Except Fault SlogValue
  | 0, _ => .error .outOfFuel
  | fuel + 1, v =>
    match typeSwitch v with
    | some r => .ok r
    | none =>
      let refV := (asReflect v).1
      let ok := (asReflect v).2
      -- unwrap interface
      let unwrapped : Except Fault reflect.Value :=
        if refV.Kind = .Interface then refV.Elem else .ok refV
      match unwrapped with
      | .error e => .error e
      | .ok refV =>
        match refV.Kind with
        | .Pointer =>
          match refV.IsNil with
          | .error e => .error e
          | .ok true => .ok (slog.StringValue "<nil>")
          | .ok false =>
            match refV.Elem with
            | .error e => .error e
            | .ok pointee => AnyValue fuel (some (.reflectValue pointee))
        | .Slice => reflectSliceValueWith (AnyValue fuel) refV true
        | .Map => reflectMapValueWith (AnyValue fuel) refV
        | _ =>
          if ok then
            match refV.Interface with
            | .error e => .error e
            | .ok x => .ok (slog.AnyValue x)
          else .ok (slog.AnyValue v)

/-- `Any` (attr.go 138-140). -/
def Any (fuel : Nat) (key : String) (v : GoAny) : Except Fault Attr :=
  AnyWith (AnyValue fuel) key v

/-- `reflectSliceValue` (attr.go 115-135). -/
def reflectSliceValue (fuel : Nat) (v : reflect.Value) (unpackSingleValue : Bool) :
    Except Fault SlogValue :=
  reflectSliceValueWith (AnyValue fuel) v unpackSingleValue

/-- `reflectMapValue` (attr.go 55-72). -/
def reflectMapValue (fuel : Nat) (m : reflect.Value) : Except Fault SlogValue :=
  reflectMapValueWith (AnyValue fuel) m

/-- `MapValue` (attr.go 32-52). -/
def MapValue (fuel : Nat) (m : GoMap) : Except Fault SlogValue :=
  match m with
  | none => .ok (slog.StringValue "<nil>")
  | some es =>
    if es.length = 0 then .ok (slog.StringValue "\x7b\x7d")
    else
      match rangeAppend (fun k v => Any fuel (Sprintf_v k) v.toAny) es with
      | .error e => .error e
      | .ok attrs => .ok (slog.GroupValue attrs)

/-- `Map` (attr.go 23-29). -/
def Map (fuel : Nat) (key : String) (m : GoMap) : Except Fault Attr :=
  if m.isNone then .ok (slog.String key "<nil>")
  else
    match MapValue fuel m with
    | .error e => .error e
    | .ok mv =>
      match slog.Group mv with
      | .error e => .error e
      | .ok g => .ok (slog.Any key (some (.attrs (some g))))

/-- `SliceValue` (attr.go 88-112). -/
def SliceValue (fuel : Nat) (s : GoSlice) (unpackSingleValue : Bool) :
    Except Fault SlogValue :=
  match s with
  | none => .ok (slog.StringValue "<nil>")
  | some es =>
    if es.length = 0 then
      if unpackSingleValue then .ok (slog.StringValue "")
      else .ok (slog.StringValue "[]")
    else if h : es.length = 1 ∧ unpackSingleValue = true then
      .ok (slog.AnyValue (es.get ⟨0, by omega⟩).toAny)
    else
      match rangeAppend (fun (pos : Nat) v => Any fuel (Itoa pos) v.toAny) es.enum with
      | .error e => .error e
      | .ok attrs => .ok (slog.GroupValue attrs)

/-- `Pointer` (attr.go 14-20); `none` is the nil pointer. -/
def Pointer (fuel : Nat) (key : String) (value : Option GoSlot) : Except Fault Attr :=
  match value with
  | none => .ok (slog.String key "<nil>")
  | some pointee => Any fuel key pointee.toAny

/-- `Slice` (attr.go 75-85). -/
def Slice (fuel : Nat) (key : String) (s : GoSlice) (unpackSingleValue : Bool) :
    Except Fault Attr :=
  if s.isNone then .ok (slog.String key "<nil>")
  else if (s.getD []).length = 1 ∧ unpackSingleValue = true then
    match SliceValue fuel s unpackSingleValue with
    | .error e => .error e
    | .ok sv => .ok (slog.Any key (some (.value sv)))
  else
    match SliceValue fuel s unpackSingleValue with
    | .error e => .error e
    | .ok sv =>
      match slog.Group sv with
      | .error e => .error e
      | .ok g => .ok (slog.Any key (some (.attrs (some g))))

/-! ## Sample values -/

/-- The map `map[string]any{"a": nil}`. -/
def mapWithNilInterface : GoMap := some [(.str "a", .iface none)]

/-- The map `map[string]any{"nested": map[int]int{1: 2, 3: 4}}`. -/
def mapWithNestedMap : GoMap :=
  some [(.str "nested", .iface (some (.map (some
    [(.int .int 1, .conc (.int .int 2)), (.int .int 3, .conc (.int .int 4))]))))]

/-- The map `map[string]int{"a": 1}`. -/
def mapA1 : GoMap := some [(.str "a", .conc (.int .int 1))]

/-- The list of attributes `[]slog.Attr{slog.String("a", "b")}`. -/
def attrsAB : GoVal := .attrs (some [("a", .string "b")])

/-- The slice `[]string{"my", "split", "string"}` of `examples/attrs/main.go`. -/
def parts : List GoSlot := [.conc (.str "my"), .conc (.str "split"), .conc (.str "string")]

/-- The slice `[][]slog.Attr{{}, {}}`: two empty lists of attributes. -/
def twoEmptyAttrLists : List GoSlot := [.conc (.attrs (some [])), .conc (.attrs (some []))]

/-- The map `map[string][]slog.Attr{"a": {}}`. -/
def mapToEmptyAttrList : List (GoKey × GoSlot) := [(.str "a", .conc (.attrs (some [])))]

/-! ## Expected results -/

/-- The attributes `"0" = v₀, "1" = v₁, ...` for the values `vs`, in order. -/
def indexedAttrs (vs : List SlogValue) : List Attr :=
  vs.enum.map fun p => (Itoa p.1, p.2)

/-- The attributes `Sprintf("%v", kᵢ) = vᵢ` for the entries `es` and the values `vs`,
in order. -/
def keyedAttrs (es : List (GoKey × GoSlot)) (vs : List SlogValue) : List Attr :=
  List.zipWith (fun p v => (Sprintf_v p.1, v)) es vs

/-- The attributes `slog.GroupValue` keeps: those whose value is not an empty group. -/
def keptAttrs (as : List Attr) : List Attr :=
  as.filter fun a => !slog.isEmptyGroup a.2

/-- Spec side of C11: the scalar a plain scalar element (string, bool, integer of any
width, float, duration, time) stands for; `none` for every other value. -/
def scalarValue : GoVal → Option SlogValue
  | .str s => some (.string s)
  | .bool b => some (.bool b)
  | .int _ n => some (.int64 n)
  | .uint _ n => some (.uint64 n)
  | .float64 b => some (.float64 (.f64 b))
  | .float32 b => some (.float64 (.ofF32 b))
  | .duration n => some (.duration n)
  | .time t => some (.time { t with mono := none })
  | _ => none

/-! ## `log/slog` levels, records and `context` -/

/-- A Go `slog.Record`; `attrs` are its attributes in order. -/
structure Record where
  Time : GoTime
  Message : String
  Level : Int
  PC : Nat
  attrs : List Attr

/-- Go `Record.AddAttrs` (log/slog/record.go): "appends the given Attrs to the Record's
list of Attrs.  It omits empty groups."  (The check for a Record copied without `Clone`
concerns the sharing of the backing array and is outside this model.) -/
def Record.AddAttrs (r : Record) (attrs : List Attr) : Record :=
  { r with attrs := r.attrs ++ attrs.filter fun a => !slog.isEmptyGroup a.2 }

/-- A value implementing `ContextKeyGetter` (ctx.go 9-12): its identity as a context key
and what its method `GetKey` returns. -/
structure ContextKeyGetter where
  id : Nat
  GetKey : String
  deriving DecidableEq, Repr

/-- Keys of context values: the package's own `ctxLogLvlKey{}` (ctx.go 14-15), a
`ContextKeyGetter`, or any other key. -/
inductive CtxKey where
  | ctxLogLvlKey
  | getter (ck : ContextKeyGetter)
  | other (id : Nat)
  deriving DecidableEq, Repr

/-- A `context.Context`, given by its method `Value`. -/
structure Context where
  Value : CtxKey → GoAny

/-- Go `context.Background`. -/
def context.Background : Context := ⟨fun _ => none⟩

/-- Go `context.WithValue`: `key` is answered with `val`, every other key by the parent. -/
def context.WithValue (parent : Context) (key : CtxKey) (val : GoAny) : Context :=
  ⟨fun k => if k = key then val else parent.Value k⟩

/-- The method `Level` of a value implementing `slog.Leveler`, `none` for a value that
does not implement it.  Of the implementations only `slog.Level` is modelled: it is the
only type the package stores under `ctxLogLvlKey{}`. -/
def levelerLevel : GoVal → Option Int
  | .level l => some l
  | _ => none

/-! ## `ctx.go` -/

/-- `DebugContext` (ctx.go 17-19). -/
def DebugContext (ctx : Context) : Context :=
  context.WithValue ctx .ctxLogLvlKey (some (.level slog.LevelDebug))

/-- `InfoContext` (ctx.go 21-23). -/
def InfoContext (ctx : Context) : Context :=
  context.WithValue ctx .ctxLogLvlKey (some (.level slog.LevelInfo))

/-- `WarnContext` (ctx.go 25-27). -/
def WarnContext (ctx : Context) : Context :=
  context.WithValue ctx .ctxLogLvlKey (some (.level slog.LevelWarn))

/-- `ErrorContext` (ctx.go 29-31). -/
def ErrorContext (ctx : Context) : Context :=
  context.WithValue ctx .ctxLogLvlKey (some (.level slog.LevelError))

/-- `LvlContext` (ctx.go 33-35); the Leveler is given by the level `lvl.Level()`
returns. -/
def LvlContext (ctx : Context) (lvl : Int) : Context :=
  context.WithValue ctx .ctxLogLvlKey (some (.level lvl))

/-- `ContextLogLvl` (ctx.go 37-44): the stored value as a `slog.Leveler`, `none` for nil;
the type assertion panics on a value that is no Leveler. -/
def ContextLogLvl (ctx : Context) : Except Fault GoAny :=
  match ctx.Value .ctxLogLvlKey with
  | none => .ok none
  | some lvl =>
    match levelerLevel lvl with
    | some _ => .ok (some lvl)
    | none => .error (.panic "interface conversion: value is not slog.Leveler")

/-! ## `common.go` -/

/-- The methods of the wrapped `slog.Handler`, for handlers of type `H`; `Handle` returns
the error (`none` for nil). -/
structure HandlerMethods (H : Type) where
  Enabled : H → Context → Int → Bool
  Handle : H → Context → Record → Option String
  WithAttrs : H → List Attr → H
  WithGroup : H → String → H

/-- `commonHandler` (common.go 8-13). -/
structure commonHandler (H : Type) where
  h : H
  ContextKeys : List ContextKeyGetter

/-- `commonHandler.Enabled` (common.go 15-21). -/
def commonHandler.Enabled {H : Type} (m : HandlerMethods H) (ch : commonHandler H)
    (ctx : Context) (level : Int) : Except Fault Bool :=
  match ContextLogLvl ctx with
  | .error e => .error e
  | .ok (some ctxLvl) =>
    match levelerLevel ctxLvl with
    | some l => .ok (decide (level ≥ l))
    | none => .error (.panic "interface conversion: value is not slog.Leveler")
  | .ok none => .ok (m.Enabled ch.h ctx level)

/-- The loop of `commonHandler.Handle` (common.go 26-33): one attribute for each key
whose value in `ctx` is not nil, in the order of the keys. -/
def contextAttrs (fuel : Nat) (ctx : Context) : List ContextKeyGetter → Except Fault (List Attr)
  | [] => .ok []
  | ck :: rest =>
    match ctx.Value (.getter ck) with
    | none => contextAttrs fuel ctx rest
    | some value =>
      match Any fuel ck.GetKey (some value) with
      | .error e => .error e
      | .ok a =>
        match contextAttrs fuel ctx rest with
        | .error e => .error e
        | .ok as => .ok (a :: as)

/-- The record `commonHandler.Handle` hands to the wrapped handler (common.go 24-35):
`record` after `record.AddAttrs(attrs...)`. -/
def commonHandler.recordWithContextAttrs {H : Type} (fuel : Nat) (ch : commonHandler H)
    (ctx : Context) (record : Record) : Except Fault Record :=
  match contextAttrs fuel ctx ch.ContextKeys with
  | .error e => .error e
  | .ok attrs => .ok (record.AddAttrs attrs)

/-- `commonHandler.Handle` (common.go 23-38): what the wrapped handler returns for the
record with the context attributes added. -/
def commonHandler.Handle {H : Type} (m : HandlerMethods H) (fuel : Nat) (ch : commonHandler H)
    (ctx : Context) (record : Record) : Except Fault (Option String) :=
  match ch.recordWithContextAttrs fuel ctx record with
  | .error e => .error e
  | .ok r => .ok (m.Handle ch.h ctx r)

/-- `commonHandler.WithAttrs` (common.go 40-45). -/
def commonHandler.WithAttrs {H : Type} (m : HandlerMethods H) (ch : commonHandler H)
    (attrs : List Attr) : commonHandler H :=
  { h := m.WithAttrs ch.h attrs, ContextKeys := ch.ContextKeys }

/-- `commonHandler.WithGroup` (common.go 47-52). -/
def commonHandler.WithGroup {H : Type} (m : HandlerMethods H) (ch : commonHandler H)
    (name : String) : commonHandler H :=
  { h := m.WithGroup ch.h name, ContextKeys := ch.ContextKeys }

/-! ## `replace.go` -/

/-- The assertion `a.Value.Any().(*slog.Source)` (replace.go 23): `none` when the value
holds anything but a `*slog.Source`; otherwise the pointer, `some none` being the nil
pointer and `some (some _)` giving function, file and line of the source pointed to. -/
def sourceOf : SlogValue → Option (Option (String × String × Int))
  | .any (some (.ptr (some (.conc (.source function file line))))) =>
    some (some (function, file, line))
  | .any (some .nilSource) => some none
  | _ => none

/-- `DefaultReplaceFunc` (replace.go 11-37); the text is `Sprintf("%s:%d", function, line)`,
and reading the fields of a nil `*slog.Source` panics. -/
def DefaultReplaceFunc (disableTime enableSource : Bool) (_groups : List String) (a : Attr) :
    Except Fault Attr :=
  if a.1 = slog.TimeKey then
    if disableTime then .ok slog.emptyAttr else .ok a
  else if a.1 = slog.SourceKey then
    if !enableSource then .ok slog.emptyAttr
    else
      match sourceOf a.2 with
      | none => .ok slog.emptyAttr
      | some none =>
        .error (.panic "runtime error: invalid memory address or nil pointer dereference")
      | some (some src) =>
        .ok (slog.SourceKey, slog.StringValue (src.1 ++ ":" ++ Itoa src.2.2))
  else .ok a

/-- A wrapped handler that is its own threshold: enabled from that level on; it handles
every record without error. -/
def thresholdHandler : HandlerMethods Int where
  Enabled := fun h _ level => decide (level ≥ h)
  Handle := fun _ _ _ => none
  WithAttrs := fun h _ => h
  WithGroup := fun h _ => h

/-- The key `ReqIdCKey{}` of `examples/common/main.go`. -/
def reqIdKey : ContextKeyGetter := ⟨0, "reqid"⟩

/-- The handler of `examples/common/main.go`: level Info and the key `ReqIdCKey{}`. -/
def exampleHandler : commonHandler Int := ⟨slog.LevelInfo, [reqIdKey]⟩

/-- The context `context.WithValue(context.Background(), ReqIdCKey{}, "example")`. -/
def exampleContext : Context :=
  context.WithValue context.Background (.getter reqIdKey) (some (.str "example"))

/-- A context holding an empty list of attributes under `ReqIdCKey{}`:
`context.WithValue(context.Background(), ReqIdCKey{}, []slog.Attr{})`. -/
def emptyAttrsContext : Context :=
  context.WithValue context.Background (.getter reqIdKey) (some (.attrs (some [])))

/-- The record of `logger.InfoContext(ctx, "log with context value")`. -/
def exampleRecord : Record := ⟨⟨0, "UTC", none⟩, "log with context value", slog.LevelInfo, 0, []⟩

/-- Spec side of C19: the record `r` extended, after its own attributes, by `as`. -/
def Record.extended (r : Record) (as : List Attr) : Record :=
  { r with attrs := r.attrs ++ as }

/-- Spec side of C19: the keys whose value in `ctx` is not nil, in order. -/
def presentKeys (ctx : Context) (keys : List ContextKeyGetter) : List ContextKeyGetter :=
  keys.filter fun ck => (ctx.Value (.getter ck)).isSome

/-- Spec side of C19: the attributes `kᵢ.GetKey() = vᵢ`, in order. -/
def getterAttrs (keys : List ContextKeyGetter) (vs : List SlogValue) : List Attr :=
  List.zipWith (fun ck v => (ck.GetKey, v)) keys vs

/-! ## `httpmiddleware.go` -/

/-- The fields of a non-nil `*http.Request` the middleware reads; `UserAgent` is what the
method `UserAgent()` returns. -/
structure Request where
  Host : String
  Method : String
  RequestURI : String
  UserAgent : String
  TransferEncoding : Option (List String)
  RemoteAddr : String
  ContentLength : Int

/-- A non-nil `http.ResponseWriter` as `Wrap` sees it through reflection: a pointer to a
struct with the integer fields `status` and `written` (the `*http.response` of `net/http`),
or any other writer. -/
inductive ResponseWriter where
  | response (status : Int) (written : Int)
  | custom (id : Nat)

/-- `ResponseData` (httpmiddleware.go 26-30). -/
structure ResponseData where
  Status : Int
  Written : Int
  StartedAt : GoTime
  Writer : ResponseWriter

/-- A call `rlm.l.InfoContext(ctx, msg, args...)` of the middleware's logger. -/
structure LogCall where
  msg : String
  args : List GoAny

/-- A `slog.Attr` as an element of a `[]any`. -/
def attrAny (a : Attr) : GoAny := some (.attr a.1 a.2)

/-- `RequestLogMiddleware` (httpmiddleware.go 16-24); `none` is a nil function, the logger
is given by an identifier.  A list of attributes is a `[]any`, `none` being the nil
slice. -/
structure RequestLogMiddleware where
  l : Nat
  startMsg : String
  endMsg : String
  startAttrs : Option (Request → Except Fault (Option (List GoAny)))
  endAttrs : Option (Request → ResponseData → Except Fault (Option (List GoAny)))
  startMsgFunc : Option (Request → String)
  endMsgFunc : Option (Request → ResponseData → String)

/-- `RLMOption` (httpmiddleware.go 32): a function changing the middleware. -/
abbrev RLMOption := RequestLogMiddleware → RequestLogMiddleware

/-- `WithMWLogger` (httpmiddleware.go 36-40). -/
def WithMWLogger (l : Nat) : RLMOption := fun r => { r with l := l }

/-- `WithMWStartLogAttributesFunc` (httpmiddleware.go 43-47). -/
def WithMWStartLogAttributesFunc
    (f : Option (Request → Except Fault (Option (List GoAny)))) : RLMOption :=
  fun r => { r with startAttrs := f }

/-- `WithMWEndLogAttributesFunc` (httpmiddleware.go 50-54). -/
def WithMWEndLogAttributesFunc
    (f : Option (Request → ResponseData → Except Fault (Option (List GoAny)))) : RLMOption :=
  fun r => { r with endAttrs := f }

/-- `WithMWEndMsg` (httpmiddleware.go 57-61). -/
def WithMWEndMsg (msg : String) : RLMOption := fun r => { r with endMsg := msg }

/-- `WithMWStartMsg` (httpmiddleware.go 64-68). -/
def WithMWStartMsg (msg : String) : RLMOption := fun r => { r with startMsg := msg }

/-- `WithMWEndMsgFunc` (httpmiddleware.go 71-75). -/
def WithMWEndMsgFunc (f : Option (Request → ResponseData → String)) : RLMOption :=
  fun r => { r with endMsgFunc := f }

/-- `WithMWStartMsgFunc` (httpmiddleware.go 78-82). -/
def WithMWStartMsgFunc (f : Option (Request → String)) : RLMOption :=
  fun r => { r with startMsgFunc := f }

/-- `defaultEndMessageFunc` (httpmiddleware.go 102-109). -/
def defaultEndMessageFunc (_req : Request) (rd : ResponseData) : String :=
  "[END=" ++ Itoa rd.Status ++ "]"

/-- A `[]string` as a typed slice; `none` is the nil slice. -/
def stringSlice (s : Option (List String)) : GoSlice :=
  s.map fun l => l.map fun x => GoSlot.conc (.str x)

/-- `CollectDefaultStartLogAttrs` (httpmiddleware.go 112-122). -/
def CollectDefaultStartLogAttrs (fuel : Nat) (req : Request) :
    Except Fault (Option (List GoAny)) :=
  match Slice fuel "te" (stringSlice req.TransferEncoding) true with
  | .error e => .error e
  | .ok te =>
    .ok (some [
      attrAny (slog.String "h" req.Host),
      attrAny (slog.String "met" req.Method),
      attrAny (slog.String "uri" req.RequestURI),
      attrAny (slog.String "ua" req.UserAgent),
      attrAny te,
      attrAny (slog.String "ra" req.RemoteAddr),
      attrAny (slog.Int64 "cl" req.ContentLength)])

/-- `CollectDefaultEndLogAttrs` (httpmiddleware.go 125-130); `since` is `time.Since`. -/
def CollectDefaultEndLogAttrs (since : GoTime → Int) (_req : Request) (rd : ResponseData) :
    Except Fault (Option (List GoAny)) :=
  .ok (some [
    attrAny (slog.Duration "T" (since rd.StartedAt)),
    attrAny (slog.Int64 "cl" rd.Written)])

/-- `NewRequestLogMiddleware` (httpmiddleware.go 85-99); the logger `0` is
`slog.Default()`. -/
def NewRequestLogMiddleware (fuel : Nat) (opts : List RLMOption) : RequestLogMiddleware :=
  opts.foldl (fun rlm opt => opt rlm)
    { l := 0
      startAttrs := some (CollectDefaultStartLogAttrs fuel)
      startMsg := "[START]"
      endMsg := "[END]"
      endMsgFunc := some defaultEndMessageFunc
      endAttrs := none
      startMsgFunc := none }

/-- `collectStartAttrs` (httpmiddleware.go 181-187). -/
def RequestLogMiddleware.collectStartAttrs (rlm : RequestLogMiddleware) (fuel : Nat)
    (req : Request) : Except Fault (Option (List GoAny)) :=
  match rlm.startAttrs with
  | some f => f req
  | none => CollectDefaultStartLogAttrs fuel req

/-- `collectEndAttr` (httpmiddleware.go 189-195). -/
def RequestLogMiddleware.collectEndAttr (rlm : RequestLogMiddleware) (since : GoTime → Int)
    (req : Request) (rd : ResponseData) : Except Fault (Option (List GoAny)) :=
  match rlm.endAttrs with
  | some f => f req rd
  | none => CollectDefaultEndLogAttrs since req rd

/-- `reflect.Indirect(reflect.ValueOf(writer)).FieldByName(name).Int()`
(httpmiddleware.go 156-159): the field of the response, a panic on a writer without such
a field. -/
def fieldInt (writer : ResponseWriter) (name : String) : Except Fault Int :=
  match writer with
  | .response status written =>
    if name = "status" then .ok status
    else if name = "written" then .ok written
    else .error (.panic "reflect: call of reflect.Value.Int on zero Value")
  | .custom _ => .error (.panic "reflect: call of reflect.Value.Int on zero Value")

/-- `RequestLogMiddleware.Wrap` (httpmiddleware.go 132-179), for one request: the calls of
the middleware's logger, in order.  `h` is the wrapped handler, given by the state in which
`h.ServeHTTP` leaves the writer; `now` is `time.Now()` and `since` is `time.Since`. -/
def RequestLogMiddleware.Wrap (rlm : RequestLogMiddleware) (fuel : Nat)
    (h : ResponseWriter → Request → ResponseWriter) (now : GoTime) (since : GoTime → Int)
    (writer : Option ResponseWriter) (request : Option Request) :
    Except Fault (List LogCall) :=
  match request with
  | none => .ok []
  | some request =>
    let startTime := now
    let startMsg :=
      match rlm.startMsgFunc with
      | some f => f request
      | none => rlm.startMsg
    match rlm.collectStartAttrs fuel request with
    | .error e => .error e
    | .ok startAttrs =>
      let start : LogCall := ⟨startMsg, startAttrs.getD []⟩
      match writer with
      | none => .ok [start, ⟨rlm.endMsg, []⟩]
      | some w0 =>
        let writer := h w0 request
        match fieldInt writer "status" with
        | .error e => .error e
        | .ok status =>
          match fieldInt writer "written" with
          | .error e => .error e
          | .ok written =>
            let rd : ResponseData := ⟨status, written, startTime, writer⟩
            let endMsg :=
              match rlm.endMsgFunc with
              | some f => f request rd
              | none => rlm.endMsg
            match rlm.collectEndAttr since request rd with
            | .error e => .error e
            | .ok none => .ok [start, ⟨endMsg, []⟩]
            | .ok (some endAttrs) => .ok [start, ⟨endMsg, endAttrs⟩]

/-- The request of `examples/middleware/main.go`: `GET /awesome/resource`. -/
def exampleRequest : Request :=
  { Host := "127.0.0.1:8000", Method := "GET", RequestURI := "/awesome/resource",
    UserAgent := "Go-http-client/1.1", TransferEncoding := none,
    RemoteAddr := "127.0.0.1:64410", ContentLength := 0 }

/-- The handler of `examples/middleware/main.go`: status 200 and 19 bytes written. -/
def exampleServe : ResponseWriter → Request → ResponseWriter :=
  fun _ _ => .response 200 19

/-- Spec side of C20: the messages of the log calls, in order. -/
def messages (calls : Except Fault (List LogCall)) : Except Fault (List String) :=
  calls.map fun cs => cs.map fun c => c.msg

/-- The request of `examples/middleware/main.go` with `TransferEncoding = []string{}`. -/
def emptyEncodingRequest : Request :=
  { exampleRequest with TransferEncoding := some [] }

/-! ## Theorems -/

/-- The loop returns the attributes `as` when the body returns them one by one. -/
theorem rangeAppend_ok {α β : Type} (body : α → β → Except Fault Attr)
    (l : List (α × β)) (as : List Attr)
    (h : List.Forall₂ (fun p a => body p.1 p.2 = .ok a) l as) :
    rangeAppend body l = .ok as := by
  induction h with
  | nil => rfl
  | cons hb _ ih => simp [rangeAppend, hb, ih]

/-- `Any` returns the attribute of the key and the value `AnyValue` returns. -/
theorem Any_ok (fuel : Nat) (key : String) (v : GoAny) (r : SlogValue)
    (h : AnyValue fuel v = .ok r) : Any fuel key v = .ok (key, r) := by
  simp [Any, AnyWith, h, slog.Any, slog.AnyValue]

/-- The loop of `SliceValue` started at position `n`. -/
theorem rangeAppend_enumFrom (fuel : Nat) (es : List GoSlot) (vs : List SlogValue)
    (h : List.Forall₂ (fun x v => AnyValue fuel x.toAny = .ok v) es vs) (n : Nat) :
    rangeAppend (fun (pos : Nat) v => Any fuel (Itoa pos) v.toAny) (es.enumFrom n)
      = .ok ((vs.enumFrom n).map fun p => (Itoa p.1, p.2)) := by
  induction h generalizing n with
  | nil => rfl
  | cons hb _ ih =>
    simp [List.enumFrom, rangeAppend, Any_ok _ _ _ _ hb, ih (n + 1)]

/-- The loop of `MapValue`. -/
theorem rangeAppend_entries (fuel : Nat) (es : List (GoKey × GoSlot)) (vs : List SlogValue)
    (h : List.Forall₂ (fun p v => AnyValue fuel p.2.toAny = .ok v) es vs) :
    rangeAppend (fun k v => Any fuel (Sprintf_v k) v.toAny) es = .ok (keyedAttrs es vs) := by
  induction h with
  | nil => rfl
  | cons hb _ ih =>
    simp [keyedAttrs, rangeAppend, Any_ok _ _ _ _ hb] at ih ⊢
    simp [ih]

/-- Nothing is dropped from a list without empty groups. -/
theorem keptAttrs_eq_self (as : List Attr) (h : ∀ a ∈ as, slog.isEmptyGroup a.2 = false) :
    keptAttrs as = as := by
  simp only [keptAttrs, List.filter_eq_self]
  intro a ha
  simp [h a ha]

/-- The indexed attributes are as many as the values. -/
theorem indexedAttrs_length (vs : List SlogValue) : (indexedAttrs vs).length = vs.length := by
  simp [indexedAttrs, List.enum]

/-- Scenario D of the specification: a `map[int]int{1: 2, 3: 4}` held as a value of an
outer map comes back, on the typed and on the reflective path, as an inner group with the
entries keyed `"1"` and `"3"`. -/
theorem nested_map_scenario (fuel : Nat) :
    MapValue (fuel + 2) mapWithNestedMap
        = .ok (.group [("nested", .group [("1", .int64 2), ("3", .int64 4)])])
      ∧ AnyValue (fuel + 3) (some (.map mapWithNestedMap))
        = .ok (.group [("nested", .group [("1", .int64 2), ("3", .int64 4)])]) :=
  ⟨rfl, rfl⟩

/-- C1: `AnyValue` does not return on every input.  On `map[string]any{"a": nil}` the
element reaches `AnyValue` as a `reflect.Value` of interface kind, unwrapping it gives the
zero Value, and `refV.Interface()` panics; the same happens for a non-nil pointer to a nil
interface (`var x any; AnyValue(&x)`). -/
theorem AnyValue_panics_on_nil_interface (fuel : Nat) :
    AnyValue (fuel + 2) (some (.map mapWithNilInterface))
        = .error (.panic "reflect: call of reflect.Value.Interface on zero Value")
      ∧ AnyValue (fuel + 2) (some (.ptr (some (.iface none))))
        = .error (.panic "reflect: call of reflect.Value.Interface on zero Value") :=
  ⟨rfl, rfl⟩

/-- C2: `AnyValue` of a nil slice is not `"<nil>"`: a nil slice of any element type other
than `slog.Attr` gives the empty string (the reflective path has no nil test), and a nil
`[]slog.Attr` gives the empty group. -/
theorem AnyValue_nil_slice (fuel : Nat) :
    AnyValue (fuel + 1) (some (.slice none)) = .ok (.string "")
      ∧ AnyValue (fuel + 1) (some (.attrs none)) = .ok (.group []) :=
  ⟨rfl, rfl⟩

/-- C3: for the one-element slice `[]map[string]int{{"a": 1}}`, `SliceValue(s, true)`
is the map kept as an opaque value (`slog.AnyValue`), whereas `AnyValue(s[0])` is the
group `[a = 1]`. -/
theorem SliceValue_single_element_not_normalized (fuel : Nat) :
    SliceValue fuel (some [.conc (.map mapA1)]) true = .ok (.any (some (.map mapA1)))
      ∧ AnyValue (fuel + 2) (some (.map mapA1)) = .ok (.group [("a", .int64 1)]) :=
  ⟨rfl, rfl⟩

/-- C4: for `x = []slog.Attr{slog.String("a", "b")}`, `AnyValue(x)` is the group
`[a = "b"]` but `AnyValue(&x)` is the attribute struct kept as an opaque value. -/
theorem AnyValue_pointer_to_attrs (fuel : Nat) :
    AnyValue (fuel + 2) (some attrsAB) = .ok (.group [("a", .string "b")])
      ∧ AnyValue (fuel + 2) (some (.ptr (some (.conc attrsAB))))
        = .ok (.any (some (.attr "a" (.string "b")))) :=
  ⟨rfl, rfl⟩

/-- C5: on an empty non-nil map `Map` panics, and on an empty non-nil slice `Slice`
panics for both flag values: `Group()` is called on the sentinel string. -/
theorem Map_Slice_panic_on_empty (fuel : Nat) (key : String) :
    Map fuel key (some []) = .error (.panic "Group: bad kind")
      ∧ Slice fuel key (some []) false = .error (.panic "Group: bad kind")
      ∧ Slice fuel key (some []) true = .error (.panic "Group: bad kind") :=
  ⟨rfl, rfl, rfl⟩

/-- C6: on `m = map[string]any{"a": nil}` the typed path `MapValue(m)` returns the group
`[a = <nil interface>]` while the reflective path `AnyValue(m)` panics. -/
theorem MapValue_AnyValue_disagree (fuel : Nat) :
    MapValue (fuel + 1) mapWithNilInterface = .ok (.group [("a", .any none)])
      ∧ AnyValue (fuel + 2) (some (.map mapWithNilInterface))
        = .error (.panic "reflect: call of reflect.Value.Interface on zero Value") :=
  ⟨rfl, rfl⟩

/-- C9: `SliceValue` of a nil slice is `"<nil>"` for both flag values; of an empty
non-nil slice it is `"[]"` without unpacking and `""` with unpacking. -/
theorem SliceValue_sentinels (fuel : Nat) (unpackSingleValue : Bool) :
    SliceValue fuel none unpackSingleValue = .ok (.string "<nil>")
      ∧ SliceValue fuel (some []) false = .ok (.string "[]")
      ∧ SliceValue fuel (some []) true = .ok (.string "") :=
  ⟨rfl, rfl, rfl⟩

/-- C10: `MapValue` and `AnyValue` both return `"<nil>"` on a nil map and the string of
an opening and a closing brace on an empty non-nil map. -/
theorem Map_sentinels (fuel : Nat) :
    MapValue fuel none = .ok (.string "<nil>")
      ∧ AnyValue (fuel + 1) (some (.map none)) = .ok (.string "<nil>")
      ∧ MapValue fuel (some []) = .ok (.string "\x7b\x7d")
      ∧ AnyValue (fuel + 1) (some (.map (some []))) = .ok (.string "\x7b\x7d") :=
  ⟨rfl, rfl, rfl, rfl⟩

/-- C7 (counterexample): for the two-element slice `[][]slog.Attr{{}, {}}` the
result of `SliceValue(s, false)` is a group without entries, not a group of two. -/
theorem SliceValue_not_always_N_entries :
    twoEmptyAttrLists.length = 2
      ∧ SliceValue 1 (some twoEmptyAttrLists) false = .ok (.group [])
      ∧ ¬ ∃ g, SliceValue 1 (some twoEmptyAttrLists) false = .ok (.group g)
            ∧ g.length = twoEmptyAttrLists.length := by
  refine ⟨rfl, rfl, ?_⟩
  rintro ⟨g, hg, hl⟩
  have h0 : SliceValue 1 (some twoEmptyAttrLists) false = .ok (.group []) := rfl
  rw [h0] at hg
  injection hg with hg
  injection hg with hg
  subst hg
  simp [twoEmptyAttrLists] at hl

/-- C7 (amended): for a non-nil slice `s` of length `N ≥ 1`, unless `N = 1` and the flag
is set, and `AnyValue` returning `vᵢ` on each element `s[i]`: `SliceValue(s, flag)` is the
group of the attributes `decimal(i) = vᵢ`, in input order, without those whose `vᵢ` is an
empty group (`slog.GroupValue` drops them); when no `vᵢ` is an empty group these are exactly
the `N` attributes keyed `"0"` to `"N-1"`. -/
theorem SliceValue_group (fuel : Nat) (es : List GoSlot) (flag : Bool) (vs : List SlogValue)
    (hlen : 1 ≤ es.length) (hnot : ¬ (es.length = 1 ∧ flag = true))
    (hel : List.Forall₂ (fun x v => AnyValue fuel x.toAny = .ok v) es vs) :
    SliceValue fuel (some es) flag = .ok (.group (keptAttrs (indexedAttrs vs)))
      ∧ ((∀ v ∈ vs, slog.isEmptyGroup v = false) →
          SliceValue fuel (some es) flag = .ok (.group (indexedAttrs vs))
            ∧ (indexedAttrs vs).length = es.length) := by
  have hmain : SliceValue fuel (some es) flag = .ok (.group (keptAttrs (indexedAttrs vs))) := by
    have h0 : ¬ es.length = 0 := by omega
    have hr := rangeAppend_enumFrom fuel es vs hel 0
    simp only [SliceValue, h0, hnot, if_false, dif_neg, not_false_eq_true, List.enum, hr]
    rfl
  refine ⟨hmain, fun hne => ⟨?_, ?_⟩⟩
  · rw [hmain, keptAttrs_eq_self]
    intro a ha
    simp only [indexedAttrs, List.mem_map] at ha
    obtain ⟨p, hp, rfl⟩ := ha
    exact hne p.2 (List.snd_mem_of_mem_enumFrom hp)
  · rw [indexedAttrs_length, hel.length_eq]

/-- C7 (witness): the three strings of `examples/attrs/main.go` give the group
`0 = "my", 1 = "split", 2 = "string"`. -/
theorem SliceValue_group_witness :
    SliceValue 1 (some parts) false
        = .ok (.group [("0", .string "my"), ("1", .string "split"), ("2", .string "string")])
      ∧ (indexedAttrs [.string "my", .string "split", .string "string"]).length = 3 :=
  (SliceValue_group 1 parts false [.string "my", .string "split", .string "string"]
    (by decide) (by decide)
    (.cons rfl (.cons rfl (.cons rfl .nil)))).2 (by simp [slog.isEmptyGroup])

/-- C8 (counterexample): for the one-entry map `map[string][]slog.Attr{"a": {}}` the
result of `MapValue` is a group without entries, not a group of one. -/
theorem MapValue_not_always_K_entries :
    mapToEmptyAttrList.length = 1
      ∧ MapValue 1 (some mapToEmptyAttrList) = .ok (.group [])
      ∧ ¬ ∃ g, MapValue 1 (some mapToEmptyAttrList) = .ok (.group g)
            ∧ g.length = mapToEmptyAttrList.length := by
  refine ⟨rfl, rfl, ?_⟩
  rintro ⟨g, hg, hl⟩
  have h0 : MapValue 1 (some mapToEmptyAttrList) = .ok (.group []) := rfl
  rw [h0] at hg
  injection hg with hg
  injection hg with hg
  subst hg
  simp [mapToEmptyAttrList] at hl

/-- C8 (amended): for a non-empty map with entries `(kᵢ, xᵢ)`, listed in the order in
which the iteration yields them (an order Go leaves unspecified), and `AnyValue` returning
`vᵢ` on each `xᵢ`: `MapValue(m)` is the group of the attributes `Sprintf("%v", kᵢ) = vᵢ`
without those whose `vᵢ` is an empty group (`slog.GroupValue` drops them) and with no other
entries; when no `vᵢ` is an empty group these are exactly one attribute per entry of the
map. -/
theorem MapValue_group (fuel : Nat) (es : List (GoKey × GoSlot)) (vs : List SlogValue)
    (hlen : 1 ≤ es.length)
    (hel : List.Forall₂ (fun p v => AnyValue fuel p.2.toAny = .ok v) es vs) :
    MapValue fuel (some es) = .ok (.group (keptAttrs (keyedAttrs es vs)))
      ∧ ((∀ v ∈ vs, slog.isEmptyGroup v = false) →
          MapValue fuel (some es) = .ok (.group (keyedAttrs es vs))
            ∧ (keyedAttrs es vs).length = es.length) := by
  have hmain : MapValue fuel (some es) = .ok (.group (keptAttrs (keyedAttrs es vs))) := by
    have h0 : ¬ es.length = 0 := by omega
    have hr := rangeAppend_entries fuel es vs hel
    simp only [MapValue, h0, if_false, hr]
    rfl
  refine ⟨hmain, fun hne => ⟨?_, ?_⟩⟩
  · rw [hmain, keptAttrs_eq_self]
    intro a ha
    simp only [keyedAttrs, List.mem_iff_get, List.get_eq_getElem, List.getElem_zipWith] at ha
    obtain ⟨i, rfl⟩ := ha
    exact hne _ (List.getElem_mem _)
  · simp [keyedAttrs, hel.length_eq]

/-- C8 (witness): `map[string]int{"a": 1}` gives the group `[a = Int64 1]`. -/
theorem MapValue_group_witness :
    MapValue 1 mapA1 = .ok (.group [("a", .int64 1)])
      ∧ (keyedAttrs [(.str "a", .conc (.int .int 1))] [.int64 1]).length = 1 :=
  (MapValue_group 1 [(.str "a", .conc (.int .int 1))] [.int64 1]
    (by decide) (.cons rfl .nil)).2 (by simp [slog.isEmptyGroup])

/-- The type switch of `AnyValue` gives the scalar of a plain scalar. -/
theorem typeSwitch_scalar (v : GoVal) (r : SlogValue) (hv : scalarValue v = some r) :
    typeSwitch (some v) = some r ∧ slog.AnyValue (some v) = r := by
  cases v <;> simp [scalarValue] at hv <;> subst hv
  case int t n => cases t <;> exact ⟨rfl, rfl⟩
  case uint t n => cases t <;> exact ⟨rfl, rfl⟩
  all_goals exact ⟨rfl, rfl⟩

/-- A matching case of the type switch is what `AnyValue` returns. -/
theorem AnyValue_of_typeSwitch (fuel : Nat) (v : GoAny) (r : SlogValue)
    (h : typeSwitch v = some r) : AnyValue (fuel + 1) v = .ok r := by
  simp [AnyValue, h]

/-- C11: for a one-element slice whose element is a plain scalar (string, bool, integer
of any width, float, duration or time), `SliceValue(s, true)` is the element's scalar,
which is also `AnyValue(s[0])`, and `Slice(key, s, true)` is the attribute of `key` and
that scalar; the scalar is no group, so no index key appears. -/
theorem Slice_single_scalar (fuel : Nat) (key : String) (x : GoSlot) (v : GoVal)
    (r : SlogValue) (hx : x.toAny = some v) (hv : scalarValue v = some r) :
    SliceValue fuel (some [x]) true = .ok r
      ∧ AnyValue (fuel + 1) x.toAny = .ok r
      ∧ Slice fuel key (some [x]) true = .ok (key, r)
      ∧ ∀ as, r ≠ .group as := by
  obtain ⟨hts, hsl⟩ := typeSwitch_scalar v r hv
  have h1 : SliceValue fuel (some [x]) true = .ok r := by
    simp [SliceValue, hx, hsl]
  refine ⟨h1, ?_, ?_, ?_⟩
  · rw [hx]; exact AnyValue_of_typeSwitch fuel _ r hts
  · simp [Slice, h1, slog.Any, slog.AnyValue]
  · intro as has
    subst has
    cases v <;> simp [scalarValue] at hv

/-- C11 (witness): `[]string{"only"}` with unpacking gives the string `"only"`, and
`Slice("unwrap", []string{"value"}, true)` of `examples/attrs/main.go` is handled alike. -/
theorem Slice_single_scalar_witness :
    SliceValue 0 (some [.conc (.str "only")]) true = .ok (.string "only")
      ∧ AnyValue 1 (some (.str "only")) = .ok (.string "only")
      ∧ Slice 0 "k" (some [.conc (.str "only")]) true = .ok ("k", .string "only")
      ∧ ∀ as, SlogValue.string "only" ≠ .group as :=
  Slice_single_scalar 0 "k" (.conc (.str "only")) (.str "only") (.string "only") rfl rfl

/-- C12: `AnyValue` of a nil pointer is `"<nil>"` and `Pointer(key, nil)` is the attribute
`key = "<nil>"`; for a non-nil pointer `Pointer(key, p)` is `Any(key, *p)`, the attribute of
`key` and of what `AnyValue` returns on the pointee. -/
theorem Pointer_nil_and_deref (fuel : Nat) (key : String) (pointee : GoSlot) :
    AnyValue (fuel + 1) (some (.ptr none)) = .ok (.string "<nil>")
      ∧ AnyValue (fuel + 1) (some .nilSource) = .ok (.string "<nil>")
      ∧ Pointer fuel key none = .ok (key, .string "<nil>")
      ∧ Pointer fuel key (some pointee) = Any fuel key pointee.toAny
      ∧ Pointer fuel key (some pointee)
          = (AnyValue fuel pointee.toAny).map fun r => (key, r) := by
  refine ⟨rfl, rfl, rfl, rfl, ?_⟩
  simp only [Pointer, Any, AnyWith]
  cases AnyValue fuel pointee.toAny <;> rfl

/-- The loop over a mapped sequence is the loop of the composed body. -/
theorem rangeAppend_map {α β γ δ : Type} (body : γ → δ → Except Fault Attr)
    (f : α × β → γ × δ) (l : List (α × β)) :
    rangeAppend body (l.map f) = rangeAppend (fun a b => body (f (a, b)).1 (f (a, b)).2) l := by
  induction l with
  | nil => rfl
  | cons p rest ih => simp [rangeAppend, ih]

/-- `Interface()` of a valid Value is the conversion of its content to `any`. -/
theorem Interface_some (s : GoSlot) : reflect.Value.Interface (some s) = .ok s.toAny := by
  cases s <;> rfl

/-- C13: for a non-nil slice `s` that is not a `[]slog.Attr`, `AnyValue(s)` is
`SliceValue(s, true)`; `AnyValue` spends one unit of its budget on its own call.  So an
empty slice gives `""`, a single element gives that element unwrapped (`slog.AnyValue`),
and two or more give the indexed group. -/
theorem AnyValue_slice_eq_SliceValue (fuel : Nat) (es : List GoSlot) :
    AnyValue (fuel + 1) (some (.slice (some es))) = SliceValue fuel (some es) true
      ∧ AnyValue (fuel + 1) (some (.slice (some []))) = .ok (.string "")
      ∧ ∀ x, AnyValue (fuel + 1) (some (.slice (some [x]))) = .ok (slog.AnyValue x.toAny) := by
  have key : ∀ l : List GoSlot,
      AnyValue (fuel + 1) (some (.slice (some l))) = SliceValue fuel (some l) true := by
    intro l
    match l with
    | [] => rfl
    | [x] =>
      simp [AnyValue, typeSwitch, asReflect, reflect.ValueOf, reflect.Value.Kind,
        reflect.kindOf, reflectSliceValueWith, reflect.Value.Len, reflect.Value.Index,
        reflect.Value.elems, Interface_some, SliceValue]
    | x :: y :: rest =>
      simp [AnyValue, typeSwitch, asReflect, reflect.ValueOf, reflect.Value.Kind,
        reflect.kindOf, reflectSliceValueWith, reflect.Value.Len, reflect.Value.Seq2Slice,
        reflect.Value.elems, SliceValue, rangeAppend_map, Interface_some, Any]
  refine ⟨key es, rfl, fun x => ?_⟩
  rw [key]
  simp [SliceValue]

/-- C14: `AnyValue` returns an `Int64` of the same value for every signed integer type, a
`Uint64` of the same value for every unsigned integer type, and the same string and
boolean for `string` and `bool`. -/
theorem AnyValue_scalars_exact (fuel : Nat) :
    (∀ (t : IntTy) (n : Int), AnyValue (fuel + 1) (some (.int t n)) = .ok (.int64 n))
      ∧ (∀ (t : UintTy) (n : Nat), AnyValue (fuel + 1) (some (.uint t n)) = .ok (.uint64 n))
      ∧ (∀ s : String, AnyValue (fuel + 1) (some (.str s)) = .ok (.string s))
      ∧ (∀ b : Bool, AnyValue (fuel + 1) (some (.bool b)) = .ok (.bool b)) := by
  refine ⟨fun t n => ?_, fun t n => ?_, fun _ => rfl, fun _ => rfl⟩
  · cases t <;> rfl
  · cases t <;> rfl

/-- C15: with `ctx = LvlContext(parent, L)`, whatever `parent` holds, `ContextLogLvl(ctx)`
is `L` and `Enabled(ctx, lvl)` is true exactly when `lvl >= L`, whatever the wrapped
handler says; `DebugContext`, `InfoContext`, `WarnContext`, `ErrorContext` are the cases
`L` = Debug, Info, Warn, Error.  For a context without an override `ContextLogLvl` is nil
and `Enabled` is the wrapped handler's `Enabled`. -/
theorem Enabled_context_level {H : Type} (m : HandlerMethods H) (ch : commonHandler H)
    (parent : Context) (L lvl : Int) :
    ContextLogLvl (LvlContext parent L) = .ok (some (.level L))
      ∧ ch.Enabled m (LvlContext parent L) lvl = .ok (decide (L ≤ lvl))
      ∧ DebugContext parent = LvlContext parent slog.LevelDebug
      ∧ InfoContext parent = LvlContext parent slog.LevelInfo
      ∧ WarnContext parent = LvlContext parent slog.LevelWarn
      ∧ ErrorContext parent = LvlContext parent slog.LevelError
      ∧ ∀ ctx : Context, ctx.Value .ctxLogLvlKey = none →
          ContextLogLvl ctx = .ok none
            ∧ ch.Enabled m ctx lvl = .ok (m.Enabled ch.h ctx lvl) := by
  refine ⟨?_, ?_, rfl, rfl, rfl, rfl, fun ctx hctx => ⟨?_, ?_⟩⟩
  · simp [ContextLogLvl, LvlContext, context.WithValue, levelerLevel]
  · simp [commonHandler.Enabled, ContextLogLvl, LvlContext, context.WithValue, levelerLevel]
  · simp [ContextLogLvl, hctx]
  · simp [commonHandler.Enabled, ContextLogLvl, hctx]

/-- C15 (witness): in the warn context of `examples/common/main.go`, built over a debug
context, the handler of level Info is enabled for Warn and not for Info; in the plain
context the wrapped handler decides. -/
theorem Enabled_context_level_witness :
    exampleHandler.Enabled thresholdHandler (WarnContext (DebugContext exampleContext))
        slog.LevelWarn = .ok true
      ∧ exampleHandler.Enabled thresholdHandler (WarnContext (DebugContext exampleContext))
        slog.LevelInfo = .ok false
      ∧ ContextLogLvl exampleContext = .ok none
      ∧ exampleHandler.Enabled thresholdHandler exampleContext slog.LevelDebug = .ok false :=
  ⟨(Enabled_context_level thresholdHandler exampleHandler (DebugContext exampleContext)
      slog.LevelWarn slog.LevelWarn).2.1,
   (Enabled_context_level thresholdHandler exampleHandler (DebugContext exampleContext)
      slog.LevelWarn slog.LevelInfo).2.1,
   ((Enabled_context_level thresholdHandler exampleHandler exampleContext
      slog.LevelWarn slog.LevelDebug).2.2.2.2.2.2 exampleContext rfl).1,
   ((Enabled_context_level thresholdHandler exampleHandler exampleContext
      slog.LevelWarn slog.LevelDebug).2.2.2.2.2.2 exampleContext rfl).2⟩

/-- The assertion to `*slog.Source` succeeds only on a `*slog.Source`. -/
theorem sourceOf_eq_some (v : SlogValue) (p : Option (String × String × Int))
    (h : sourceOf v = some p) :
    v = .any (some .nilSource)
      ∨ ∃ f file n, v = .any (some (.ptr (some (.conc (.source f file n))))) := by
  unfold sourceOf at h
  split at h
  · exact Or.inr ⟨_, _, _, rfl⟩
  · exact Or.inl rfl
  · simp at h

/-- C17: on an attribute with key `"source"`: without `enableSource` the result is the
empty attribute; with `enableSource` and a value holding a `*slog.Source` of function `f`
and line `n` it is `source = f:n`; with `enableSource` and a value that is no
`*slog.Source` it is the empty attribute. -/
theorem DefaultReplaceFunc_source (disableTime : Bool) (groups : List String)
    (v : SlogValue) :
    DefaultReplaceFunc disableTime false groups ("source", v) = .ok slog.emptyAttr
      ∧ (∀ (f file : String) (n : Int),
          DefaultReplaceFunc disableTime true groups
              ("source", .any (some (.ptr (some (.conc (.source f file n))))))
            = .ok ("source", .string (f ++ ":" ++ Itoa n)))
      ∧ (v ≠ .any (some .nilSource) →
          (∀ (f file : String) (n : Int),
            v ≠ .any (some (.ptr (some (.conc (.source f file n)))))) →
          DefaultReplaceFunc disableTime true groups ("source", v) = .ok slog.emptyAttr) := by
  have hk : ("source" : String) ≠ slog.TimeKey := by decide
  refine ⟨?_, fun f file n => ?_, fun hnil hv => ?_⟩
  · simp [DefaultReplaceFunc, hk, slog.SourceKey]
  · simp [DefaultReplaceFunc, hk, slog.SourceKey, sourceOf, slog.StringValue]
  · have hs : sourceOf v = none := by
      cases h : sourceOf v with
      | none => rfl
      | some p =>
        rcases sourceOf_eq_some v p h with h1 | ⟨f, file, n, h2⟩
        · exact absurd h1 hnil
        · exact absurd h2 (hv f file n)
    simp [DefaultReplaceFunc, hk, slog.SourceKey, hs]

/-- C17 (witness): the source of function `main.main` at line 23 becomes
`source = "main.main:23"`, and a string value under the key `"source"` is dropped. -/
theorem DefaultReplaceFunc_source_witness :
    DefaultReplaceFunc true true []
        ("source", .any (some (.ptr (some (.conc (.source "main.main" "main.go" 23))))))
      = .ok ("source", .string "main.main:23")
      ∧ DefaultReplaceFunc true true [] ("source", .string "x") = .ok slog.emptyAttr :=
  ⟨(DefaultReplaceFunc_source true [] (.string "x")).2.1 "main.main" "main.go" 23,
   (DefaultReplaceFunc_source true [] (.string "x")).2.2 (fun h => nomatch h)
     (fun _ _ _ h => nomatch h)⟩

/-- C18: an attribute whose key is neither `"time"` nor `"source"` is returned unchanged;
an attribute with key `"time"` becomes the empty attribute with `disableTime` and is
returned unchanged without it, whatever `enableSource` is. -/
theorem DefaultReplaceFunc_frame (disableTime enableSource : Bool) (groups : List String)
    (a : Attr) :
    (a.1 ≠ "time" → a.1 ≠ "source" →
        DefaultReplaceFunc disableTime enableSource groups a = .ok a)
      ∧ DefaultReplaceFunc true enableSource groups ("time", a.2) = .ok slog.emptyAttr
      ∧ DefaultReplaceFunc false enableSource groups ("time", a.2) = .ok ("time", a.2) := by
  refine ⟨fun h1 h2 => ?_, ?_, ?_⟩
  · simp [DefaultReplaceFunc, slog.TimeKey, slog.SourceKey, h1, h2]
  · simp [DefaultReplaceFunc, slog.TimeKey]
  · simp [DefaultReplaceFunc, slog.TimeKey]

/-- C18 (witness): with time disabled and source off, as in
`examples/middleware/main.go`, the attribute `msg = "x"` is kept and `time` is dropped. -/
theorem DefaultReplaceFunc_frame_witness :
    DefaultReplaceFunc true false [] ("msg", .string "x") = .ok ("msg", .string "x")
      ∧ DefaultReplaceFunc true false [] ("time", .string "x") = .ok slog.emptyAttr :=
  ⟨(DefaultReplaceFunc_frame true false [] ("msg", .string "x")).1 (by decide) (by decide),
   (DefaultReplaceFunc_frame true false [] ("msg", .string "x")).2.1⟩

/-- The loop of `Handle` returns one attribute per key whose value is not nil. -/
theorem contextAttrs_ok (fuel : Nat) (ctx : Context) (keys : List ContextKeyGetter) :
    ∀ vs : List SlogValue,
      List.Forall₂ (fun ck v => AnyValue fuel (ctx.Value (.getter ck)) = .ok v)
        (presentKeys ctx keys) vs →
      contextAttrs fuel ctx keys = .ok (getterAttrs (presentKeys ctx keys) vs) := by
  induction keys with
  | nil =>
    intro vs h
    simp only [presentKeys, List.filter_nil] at h
    cases h
    rfl
  | cons ck rest ih =>
    intro vs h
    cases hv : ctx.Value (.getter ck) with
    | none =>
      have hp : presentKeys ctx (ck :: rest) = presentKeys ctx rest := by
        simp [presentKeys, hv]
      rw [hp] at h ⊢
      simp only [contextAttrs, hv]
      exact ih vs h
    | some value =>
      have hp : presentKeys ctx (ck :: rest) = ck :: presentKeys ctx rest := by
        simp [presentKeys, hv]
      rw [hp] at h ⊢
      cases h with
      | cons hb hrest =>
        rw [hv] at hb
        simp only [contextAttrs, hv, Any_ok _ _ _ _ hb, ih _ hrest]
        rfl

/-- C19 (counterexample): with the key `ReqIdCKey{}` holding the non-nil value
`[]slog.Attr{}` in the context, `Handle` hands the record on without any attribute. -/
theorem Handle_not_always_one_attr_per_key :
    emptyAttrsContext.Value (.getter reqIdKey) = some (.attrs (some []))
      ∧ (exampleHandler.recordWithContextAttrs 1 emptyAttrsContext exampleRecord).map
          (fun r => r.attrs) = .ok []
      ∧ exampleHandler.Handle thresholdHandler 1 emptyAttrsContext exampleRecord
          = .ok (thresholdHandler.Handle exampleHandler.h emptyAttrsContext exampleRecord) :=
  ⟨rfl, rfl, rfl⟩

/-- C19 (amended): for a handler with the context keys `k₁ .. kₙ`, a context `ctx` and a
record `r`, with `AnyValue` returning `vᵢ` on the value of each key whose value in `ctx`
is not nil: `Handle` returns what the wrapped handler returns for `r` extended, after its
own attributes, by the attributes `kᵢ.GetKey() = vᵢ` of those keys, in the order of the key
list, without those whose `vᵢ` is an empty group (`Record.AddAttrs` omits them); when no
`vᵢ` is an empty group that is exactly one attribute per key with a non-nil value.
`WithAttrs` and `WithGroup` keep the key list. -/
theorem Handle_adds_context_attrs {H : Type} (m : HandlerMethods H) (fuel : Nat)
    (ch : commonHandler H) (ctx : Context) (r : Record) (vs : List SlogValue)
    (hel : List.Forall₂ (fun ck v => AnyValue fuel (ctx.Value (.getter ck)) = .ok v)
      (presentKeys ctx ch.ContextKeys) vs) :
    ch.recordWithContextAttrs fuel ctx r
        = .ok (r.extended (keptAttrs (getterAttrs (presentKeys ctx ch.ContextKeys) vs)))
      ∧ ch.Handle m fuel ctx r
        = .ok (m.Handle ch.h ctx
            (r.extended (keptAttrs (getterAttrs (presentKeys ctx ch.ContextKeys) vs))))
      ∧ ((∀ v ∈ vs, slog.isEmptyGroup v = false) →
          ch.recordWithContextAttrs fuel ctx r
              = .ok (r.extended (getterAttrs (presentKeys ctx ch.ContextKeys) vs))
            ∧ ch.Handle m fuel ctx r
              = .ok (m.Handle ch.h ctx
                  (r.extended (getterAttrs (presentKeys ctx ch.ContextKeys) vs)))
            ∧ (getterAttrs (presentKeys ctx ch.ContextKeys) vs).length
                = (presentKeys ctx ch.ContextKeys).length)
      ∧ (∀ attrs, (ch.WithAttrs m attrs).ContextKeys = ch.ContextKeys)
      ∧ (∀ name, (ch.WithGroup m name).ContextKeys = ch.ContextKeys) := by
  have hrec : ch.recordWithContextAttrs fuel ctx r
      = .ok (r.extended (keptAttrs (getterAttrs (presentKeys ctx ch.ContextKeys) vs))) := by
    simp only [commonHandler.recordWithContextAttrs,
      contextAttrs_ok fuel ctx ch.ContextKeys vs hel, Record.AddAttrs, keptAttrs,
      Record.extended]
  have hmain : ch.Handle m fuel ctx r
      = .ok (m.Handle ch.h ctx
          (r.extended (keptAttrs (getterAttrs (presentKeys ctx ch.ContextKeys) vs)))) := by
    simp only [commonHandler.Handle, hrec]
  have hkept : (∀ v ∈ vs, slog.isEmptyGroup v = false) →
      keptAttrs (getterAttrs (presentKeys ctx ch.ContextKeys) vs)
        = getterAttrs (presentKeys ctx ch.ContextKeys) vs := by
    intro hne
    apply keptAttrs_eq_self
    intro a ha
    simp only [getterAttrs, List.mem_iff_get, List.get_eq_getElem, List.getElem_zipWith] at ha
    obtain ⟨i, rfl⟩ := ha
    exact hne _ (List.getElem_mem _)
  refine ⟨hrec, hmain, fun hne => ⟨?_, ?_, ?_⟩, fun _ => rfl, fun _ => rfl⟩
  · rw [hrec, hkept hne]
  · rw [hmain, hkept hne]
  · simp [getterAttrs, hel.length_eq]

/-- C19 (witness): in `examples/common/main.go` the record of
`logger.InfoContext(ctx, "log with context value")` reaches the wrapped handler with the
attribute `reqid = "example"`. -/
theorem Handle_adds_context_attrs_witness :
    exampleHandler.recordWithContextAttrs 1 exampleContext exampleRecord
        = .ok (exampleRecord.extended [("reqid", .string "example")])
      ∧ exampleHandler.Handle thresholdHandler 1 exampleContext exampleRecord
        = .ok (thresholdHandler.Handle exampleHandler.h exampleContext
            (exampleRecord.extended [("reqid", .string "example")])) :=
  ⟨((Handle_adds_context_attrs thresholdHandler 1 exampleHandler exampleContext exampleRecord
      [.string "example"] (.cons rfl .nil)).2.2.1 (by simp [slog.isEmptyGroup])).1,
   ((Handle_adds_context_attrs thresholdHandler 1 exampleHandler exampleContext exampleRecord
      [.string "example"] (.cons rfl .nil)).2.2.1 (by simp [slog.isEmptyGroup])).2.1⟩

/-- A sequence of options is applied in order. -/
theorem NewRequestLogMiddleware_endMsg (fuel : Nat) (m : String) :
    (NewRequestLogMiddleware fuel [WithMWEndMsg m]).endMsg = m
      ∧ (NewRequestLogMiddleware fuel [WithMWEndMsg m]).endMsgFunc = some defaultEndMessageFunc
      ∧ (NewRequestLogMiddleware fuel [WithMWEndMsgFunc none, WithMWEndMsg m]).endMsg = m
      ∧ (NewRequestLogMiddleware fuel [WithMWEndMsgFunc none, WithMWEndMsg m]).endMsgFunc = none :=
  ⟨rfl, rfl, rfl, rfl⟩

/-- C20 (counterexample): the middleware built with `WithMWEndMsg("END")` alone logs, for
the request of `examples/middleware/main.go` answered with status 200, the END message
`"[END=200]"` of the default message function, not `"END"`. -/
theorem WithMWEndMsg_alone_not_used :
    messages ((NewRequestLogMiddleware 1 [WithMWEndMsg "END"]).Wrap 1 exampleServe
        ⟨0, "UTC", none⟩ (fun _ => 0) (some (.response 0 0)) (some exampleRequest))
      = .ok ["[START]", "[END=200]"]
      ∧ ("[END=200]" : String) ≠ "END" :=
  ⟨rfl, by decide⟩

/-- The messages of the two log calls, given that the default START attributes are
collected. -/
theorem Wrap_messages_of_start (fuel : Nat) (m : String)
    (h : ResponseWriter → Request → ResponseWriter) (now : GoTime) (since : GoTime → Int)
    (w0 : ResponseWriter) (req : Request) (status written : Int)
    (as : Option (List GoAny))
    (hserve : h w0 req = .response status written)
    (hstart : CollectDefaultStartLogAttrs fuel req = .ok as) :
    messages ((NewRequestLogMiddleware fuel [WithMWEndMsgFunc none, WithMWEndMsg m]).Wrap
        fuel h now since (some w0) (some req)) = .ok ["[START]", m]
      ∧ messages ((NewRequestLogMiddleware fuel [WithMWEndMsg m]).Wrap
        fuel h now since (some w0) (some req)) = .ok ["[START]", "[END=" ++ Itoa status ++ "]"]
      ∧ messages ((NewRequestLogMiddleware fuel [WithMWEndMsg m]).Wrap
        fuel h now since none (some req)) = .ok ["[START]", m] := by
  refine ⟨?_, ?_, ?_⟩
  · simp [messages, RequestLogMiddleware.Wrap, NewRequestLogMiddleware, WithMWEndMsg,
      WithMWEndMsgFunc, RequestLogMiddleware.collectStartAttrs, hstart, hserve, fieldInt,
      RequestLogMiddleware.collectEndAttr, CollectDefaultEndLogAttrs, Except.map]
  · simp [messages, RequestLogMiddleware.Wrap, NewRequestLogMiddleware, WithMWEndMsg,
      RequestLogMiddleware.collectStartAttrs, hstart, hserve, fieldInt,
      RequestLogMiddleware.collectEndAttr, CollectDefaultEndLogAttrs, Except.map,
      defaultEndMessageFunc]
  · simp [messages, RequestLogMiddleware.Wrap, NewRequestLogMiddleware, WithMWEndMsg,
      RequestLogMiddleware.collectStartAttrs, hstart, Except.map]

/-- `AnyValue` returns on every element of a `[]string`. -/
theorem strings_normalized (fuel : Nat) (l : List String) :
    List.Forall₂ (fun x v => AnyValue (fuel + 1) (GoSlot.toAny x) = .ok v)
      (l.map fun x => GoSlot.conc (.str x)) (l.map fun x => SlogValue.string x) := by
  induction l with
  | nil => exact .nil
  | cons x rest ih => exact .cons rfl ih

/-- `Slice(key, s, true)` returns on every `[]string` that is nil or not empty. -/
theorem Slice_strings_ok (fuel : Nat) (key : String) (te : Option (List String))
    (hte : te ≠ some []) : ∃ a, Slice (fuel + 1) key (stringSlice te) true = .ok a := by
  match te, hte with
  | none, _ => exact ⟨_, rfl⟩
  | some [], hte => exact absurd rfl hte
  | some [x], _ => exact ⟨_, rfl⟩
  | some (x :: y :: rest), _ =>
    have hg := (SliceValue_group (fuel + 1)
      ((x :: y :: rest).map fun x => GoSlot.conc (.str x)) true
      ((x :: y :: rest).map fun x => SlogValue.string x)
      (by simp) (by simp) (strings_normalized fuel (x :: y :: rest))).1
    have hs : Slice (fuel + 1) key (stringSlice (some (x :: y :: rest))) true
        = .ok (slog.Any key (some (.attrs (some (keptAttrs (indexedAttrs
            ((x :: y :: rest).map fun x => SlogValue.string x))))))) := by
      simp only [List.map_cons] at hg
      simp [Slice, stringSlice, hg, slog.Group]
    exact ⟨_, hs⟩

/-- The default START attributes are collected for every request whose
`TransferEncoding` is nil or not empty. -/
theorem CollectDefaultStartLogAttrs_ok (fuel : Nat) (req : Request)
    (hte : req.TransferEncoding ≠ some []) :
    ∃ as, CollectDefaultStartLogAttrs (fuel + 1) req = .ok as := by
  obtain ⟨a, ha⟩ := Slice_strings_ok fuel "te" req.TransferEncoding hte
  simp only [CollectDefaultStartLogAttrs, ha]
  exact ⟨_, rfl⟩

/-- C20 (amended): for every string `m`, every request whose `TransferEncoding` is nil or
not empty and every response writer with the fields `status` and `written`: the
middleware built with `WithMWEndMsgFunc(nil)` and `WithMWEndMsg(m)` logs `m` as its END
message, whatever the status; the one built with `WithMWEndMsg(m)` alone logs the
`[END=<status>]` of the default message function, which has priority, and logs `m` only
when the response writer is nil. -/
theorem WithMWEndMsg_used (fuel : Nat) (m : String)
    (h : ResponseWriter → Request → ResponseWriter) (now : GoTime) (since : GoTime → Int)
    (w0 : ResponseWriter) (req : Request) (status written : Int)
    (hserve : h w0 req = .response status written)
    (hte : req.TransferEncoding ≠ some []) :
    messages ((NewRequestLogMiddleware (fuel + 1)
          [WithMWEndMsgFunc none, WithMWEndMsg m]).Wrap
        (fuel + 1) h now since (some w0) (some req)) = .ok ["[START]", m]
      ∧ messages ((NewRequestLogMiddleware (fuel + 1) [WithMWEndMsg m]).Wrap
        (fuel + 1) h now since (some w0) (some req))
          = .ok ["[START]", "[END=" ++ Itoa status ++ "]"]
      ∧ messages ((NewRequestLogMiddleware (fuel + 1) [WithMWEndMsg m]).Wrap
        (fuel + 1) h now since none (some req)) = .ok ["[START]", m] := by
  obtain ⟨as, hstart⟩ := CollectDefaultStartLogAttrs_ok fuel req hte
  exact Wrap_messages_of_start (fuel + 1) m h now since w0 req status written as hserve hstart

/-- C20 (witness): for the request of `examples/middleware/main.go`, whose
`TransferEncoding` is nil, answered with status 200, the END message is `"END"` once the
default message function is removed. -/
theorem WithMWEndMsg_used_witness :
    exampleRequest.TransferEncoding ≠ some []
      ∧ messages ((NewRequestLogMiddleware 1 [WithMWEndMsgFunc none, WithMWEndMsg "END"]).Wrap
        1 exampleServe ⟨0, "UTC", none⟩ (fun _ => 0) (some (.response 0 0))
        (some exampleRequest)) = .ok ["[START]", "END"] :=
  ⟨(fun h => nomatch h),
   (WithMWEndMsg_used 0 "END" exampleServe ⟨0, "UTC", none⟩ (fun _ => 0) (.response 0 0)
    exampleRequest 200 19 rfl (fun h => nomatch h)).1⟩

/-- C21: `AnyValue` returns a `slog.Value` as it is; hence, when `AnyValue(v)` returns,
`AnyValue(AnyValue(v))` is `AnyValue(v)`, and `Any(key, v)` is the attribute of `key` and
exactly the value `AnyValue(v)` returns. -/
theorem AnyValue_identity_idempotent (fuel : Nat) (key : String) (v : GoAny) (r : SlogValue)
    (h : AnyValue fuel v = .ok r) :
    (∀ (x : SlogValue) (f : Nat), AnyValue (f + 1) (some (.value x)) = .ok x)
      ∧ AnyValue fuel (some (.value r)) = AnyValue fuel v
      ∧ Any fuel key v = .ok (key, r) := by
  refine ⟨fun _ _ => rfl, ?_, Any_ok fuel key v r h⟩
  cases fuel with
  | zero => simp [AnyValue] at h
  | succ f => rw [h]; rfl

/-- C21 (witness): `AnyValue` of `map[string]int{"a": 1}` is the group `[a = 1]`, applying
`AnyValue` to that group gives it again, and `Any("m", m)` is the attribute of `"m"` and
the group. -/
theorem AnyValue_identity_idempotent_witness :
    AnyValue 2 (some (.value (.group [("a", .int64 1)]))) = AnyValue 2 (some (.map mapA1))
      ∧ Any 2 "m" (some (.map mapA1)) = .ok ("m", .group [("a", .int64 1)]) :=
  (AnyValue_identity_idempotent 2 "m" (some (.map mapA1)) (.group [("a", .int64 1)]) rfl).2

/-- On a request whose `TransferEncoding` is the empty non-nil slice,
`Slice("te", ..., true)` of the default START attributes panics (`Group()` on the sentinel
string), so the middleware makes no log call at all. -/
theorem Wrap_panics_on_empty_TransferEncoding (fuel : Nat) (m : String) :
    (NewRequestLogMiddleware fuel [WithMWEndMsgFunc none, WithMWEndMsg m]).Wrap
        fuel exampleServe ⟨0, "UTC", none⟩ (fun _ => 0) (some (.response 0 0))
        (some emptyEncodingRequest) = .error (.panic "Group: bad kind") :=
  rfl

end Slogan
